import Mathlib

/-!
# AI-Assistant orchestration core: formal model and verification

This file embeds the data model and operations of the AI-Assistant
repository (the assistant orchestration core described in the design
document, and the configuration dashboard in
`src/ui/config-dashboard/src/App.jsx`) as executable Lean definitions, and
proves the spec's claims about them.

The orchestration core itself (Tool Executor, Orchestrator, Retriever,
Model Gateway, Consent & Privilege Ledger) is not present under `src/`
— only the dashboard UI and design documents are — so those components
are modelled from the specification text, as indicated on each
definition's doc comment.
-/

namespace AIAssistant

/-! ## Core data model (modelled from the spec, §3 DATA MODEL) -/

/-- Modelled from the spec: the privilege tier of a session or the declared
privilege of an intent — `informational` or `command`. -/
inductive Tier where
  | informational
  | command
deriving DecidableEq, Repr

/-- Modelled from the spec: one consent grant in
`Session.consent_grants`: `{granted_at, scope, expiry}`. `expiry` is an
absolute timestamp; the grant is unexpired at time `now` iff `now < expiry`. -/
structure ConsentGrant where
  granted_at : Nat
  scope : String
  expiry : Nat
deriving DecidableEq, Repr

/-- Modelled from the spec: `Session = {id, privilege_tier, paused,
consent_grants}` with `consent_grants` a mapping tool_name → grant,
represented as an association list. -/
structure Session where
  id : String
  privilege_tier : Tier
  paused : Bool
  consent_grants : List (String × ConsentGrant)
deriving DecidableEq, Repr

/-- Modelled from the spec: `AuditEntry = {ts, session_id, event_kind,
detail}` — append-only record of a privileged event. -/
structure AuditEntry where
  ts : Nat
  session_id : String
  event_kind : String
  detail : String
deriving DecidableEq, Repr

/-- Modelled from the spec: `ToolSpec = {name, permission_tier, rate_limit,
timeout_ms, requires_consent, sandbox_policy}`. -/
structure ToolSpec where
  name : String
  permission_tier : Tier
  rate_limit : Nat
  timeout_ms : Nat
  requires_consent : Bool
  sandbox_policy : String
deriving DecidableEq, Repr

/-- Modelled from the spec: the status of a `ToolInvocationResult`
(`ok | denied | timeout | error`). -/
inductive InvStatus where
  | ok
  | denied
  | timeout
  | error
deriving DecidableEq, Repr

/-- Modelled from the spec: `ToolInvocationResult = {tool_name, status,
output (sanitized), duration_ms, started_at}`. -/
structure ToolInvocationResult where
  tool_name : String
  status : InvStatus
  output : String
  duration_ms : Nat
  started_at : Nat
deriving DecidableEq, Repr

/-! ## Consent & Privilege Ledger (modelled from the spec, §4.5) -/

/-- Modelled from the spec: a valid unexpired grant for `tool` exists in
`session.consent_grants` at time `now`. -/
def hasValidGrant (s : Session) (tool : String) (now : Nat) : Bool :=
  s.consent_grants.any (fun p => p.1 == tool && decide (now < p.2.expiry))

/-- Modelled from the spec: `grant(session, tool_name, scope, ttl)` —
idempotent upsert that overwrites an existing grant for the same tool.
The new grant expires at `now + ttl`.  As every state-changing event must,
it produces its audit entries alongside the updated session. -/
def grant (s : Session) (tool_name scope : String) (ttl now : Nat) :
    Session × List AuditEntry :=
  ({ s with
      consent_grants :=
        (tool_name, { granted_at := now, scope := scope, expiry := now + ttl }) ::
          s.consent_grants.filter (fun p => !(p.1 == tool_name)) },
   [{ ts := now, session_id := s.id, event_kind := "consent_granted",
      detail := tool_name }])

/-- Modelled from the spec: `revoke(session, tool_name)` removes the grant. -/
def revoke (s : Session) (tool_name : String) (now : Nat) :
    Session × List AuditEntry :=
  ({ s with consent_grants := s.consent_grants.filter (fun p => !(p.1 == tool_name)) },
   [{ ts := now, session_id := s.id, event_kind := "consent_revoked",
      detail := tool_name }])

/-- Modelled from the spec: `set_privilege(session, tier)`. -/
def set_privilege (s : Session) (tier : Tier) (now : Nat) :
    Session × List AuditEntry :=
  ({ s with privilege_tier := tier },
   [{ ts := now, session_id := s.id, event_kind := "privilege_set", detail := s.id }])

/-- Modelled from the spec: `pause(session)`. -/
def pause (s : Session) (now : Nat) : Session × List AuditEntry :=
  ({ s with paused := true },
   [{ ts := now, session_id := s.id, event_kind := "session_paused", detail := s.id }])

/-- Modelled from the spec: `resume(session)`. -/
def resume (s : Session) (now : Nat) : Session × List AuditEntry :=
  ({ s with paused := false },
   [{ ts := now, session_id := s.id, event_kind := "session_resumed", detail := s.id }])

/-! ## Tool Executor (modelled from the spec, §4.4) -/

/-- Modelled from the spec: the behaviour of the underlying tool action,
abstracted as what running it on the given arguments would yield: an
output, a running time, and whether it succeeded. -/
structure RunResult where
  output : String
  duration_ms : Nat
  ok : Bool
deriving DecidableEq, Repr

/-- Outcome of a Tool Executor invocation: the result forwarded to the
caller, the audit entries written, and whether the underlying tool action
was actually executed. -/
structure InvokeOutcome where
  result : ToolInvocationResult
  audit : List AuditEntry
  executed : Bool
deriving DecidableEq, Repr

/-- Modelled from the spec: `invoke(tool_name, args, session) ->
ToolInvocationResult`.  Looks up the ToolSpec (rejecting unknown tools);
enforces the per-(session, tool) rate limit (`windowCalls` is the sliding
window counter for this pair); checks consent (`requires_consent` with no
valid unexpired grant yields `denied` with a `consent_required` audit
entry, without executing the action); executes under the hard timeout
`timeout_ms` (on timeout the partial output is discarded); sanitizes the
output via `sanitize` before it reaches the caller or the audit log.
Every path writes exactly one audit entry. -/
def invoke (registry : List ToolSpec) (windowCalls : Nat)
    (sanitize : String → String) (tool_name args : String)
    (session : Session) (now : Nat) (run : String → RunResult) : InvokeOutcome :=
  match registry.find? (fun t => t.name == tool_name) with
  | none =>
      { result := { tool_name := tool_name, status := .error, output := "",
                    duration_ms := 0, started_at := now },
        audit := [{ ts := now, session_id := session.id,
                    event_kind := "unknown_tool", detail := tool_name }],
        executed := false }
  | some ts =>
      if ts.rate_limit ≤ windowCalls then
        { result := { tool_name := tool_name, status := .denied, output := "",
                      duration_ms := 0, started_at := now },
          audit := [{ ts := now, session_id := session.id,
                      event_kind := "rate_limited", detail := tool_name }],
          executed := false }
      else if ts.requires_consent && !hasValidGrant session tool_name now then
        { result := { tool_name := tool_name, status := .denied, output := "",
                      duration_ms := 0, started_at := now },
          audit := [{ ts := now, session_id := session.id,
                      event_kind := "consent_required", detail := tool_name }],
          executed := false }
      else
        if ts.timeout_ms < (run args).duration_ms then
          { result := { tool_name := tool_name, status := .timeout, output := "",
                        duration_ms := ts.timeout_ms, started_at := now },
            audit := [{ ts := now, session_id := session.id,
                        event_kind := "tool_timeout", detail := tool_name }],
            executed := true }
        else if (run args).ok then
          { result := { tool_name := tool_name, status := .ok,
                        output := sanitize (run args).output,
                        duration_ms := (run args).duration_ms, started_at := now },
            audit := [{ ts := now, session_id := session.id,
                        event_kind := "tool_ok", detail := sanitize (run args).output }],
            executed := true }
        else
          { result := { tool_name := tool_name, status := .error,
                        output := sanitize (run args).output,
                        duration_ms := (run args).duration_ms, started_at := now },
            audit := [{ ts := now, session_id := session.id,
                        event_kind := "tool_error", detail := sanitize (run args).output }],
            executed := true }

/-! ## Orchestrator / Turn Controller (modelled from the spec, §4.1) -/

/-- Modelled from the spec: the orchestrator's turn stages
`received → guardrail_check → routed → (tooling)* → generating →
post_processing → done`, with terminal `failed` and `cancelled`. -/
inductive Stage where
  | received
  | guardrail_check
  | routed
  | tooling
  | generating
  | post_processing
  | done
  | failed
  | cancelled
deriving DecidableEq, Repr

/-- Modelled from the spec: `Intent = {id, session_id, text,
declared_privilege, timestamp, safety_tag}`. -/
structure Intent where
  id : String
  session_id : String
  text : String
  declared_privilege : Tier
  timestamp : Nat
  safety_tag : String
deriving DecidableEq, Repr

/-- Modelled from the spec: the observable outcome of one turn — the final
stage, the error kind (from the §7 taxonomy) if any, the audit entries
written, the number of tool calls and model generation calls attempted,
and the `partial_context` flag of the response metadata (named
`incomplete_context` here). -/
structure TurnOutcome where
  stage : Stage
  errKind : Option String
  audit : List AuditEntry
  tool_calls : Nat
  gen_calls : Nat
  incomplete_context : Bool
deriving DecidableEq, Repr

/-- Modelled from the spec: the intent's declared action exceeds the
session's privilege tier (a `command` intent on an `informational`
session). -/
def privilegeExceeds (declared tier : Tier) : Bool :=
  declared == .command && tier == .informational

/-- Accumulated result of the orchestrator's tooling round. -/
structure ToolPhase where
  audit : List AuditEntry
  calls : Nat
  incomplete_context : Bool
deriving DecidableEq, Repr

/-- Modelled from the spec: the orchestrator's tooling round — invoke the
requested tools in sequence, bounded by the per-turn tool-time budget; when
the budget is exhausted the remaining tool calls are skipped and the turn
proceeds with partial context. -/
def runTools (registry : List ToolSpec) (session : Session) (now : Nat)
    (runs : String → String → RunResult) :
    Nat → List (String × String) → ToolPhase
  | _, [] => { audit := [], calls := 0, incomplete_context := false }
  | budget, (name, args) :: rest =>
      if budget == 0 then
        { audit := [], calls := 0, incomplete_context := true }
      else
        let o := invoke registry 0 id name args session now (runs name)
        let tail := runTools registry session now runs
          (budget - o.result.duration_ms) rest
        { audit := o.audit ++ tail.audit, calls := tail.calls + 1,
          incomplete_context := tail.incomplete_context }

/-- Modelled from the spec: `process_turn(intent)`.  Validates privilege
against `Session.privilege_tier` first: if the intent's declared action
exceeds the session's tier, the turn transitions to `failed` with
`PrivilegeDenied` and writes an AuditEntry before returning — no tool or
model call is attempted.  Then the guardrail check (on rejection: canned
refusal, one `guardrail_block` entry, no further stages); then the pause
check; then the tooling round under the tool-time budget; finally one
generation call through the Model Gateway (abstracted by `genOk`), failing
the turn with `GenerationUnavailable` on failure. -/
def process_turn (session : Session) (intent : Intent)
    (guardrailOk : Intent → Bool) (registry : List ToolSpec)
    (toolReqs : List (String × String)) (toolBudget : Nat)
    (runs : String → String → RunResult) (genOk : Bool) (now : Nat) :
    TurnOutcome :=
  if privilegeExceeds intent.declared_privilege session.privilege_tier then
    { stage := .failed, errKind := some "PrivilegeDenied",
      audit := [{ ts := now, session_id := session.id,
                  event_kind := "privilege_denied", detail := intent.id }],
      tool_calls := 0, gen_calls := 0, incomplete_context := false }
  else if !guardrailOk intent then
    { stage := .failed, errKind := some "GuardrailBlocked",
      audit := [{ ts := now, session_id := session.id,
                  event_kind := "guardrail_block", detail := intent.id }],
      tool_calls := 0, gen_calls := 0, incomplete_context := false }
  else if session.paused then
    { stage := .cancelled, errKind := some "TurnCancelled",
      audit := [{ ts := now, session_id := session.id,
                  event_kind := "turn_cancelled", detail := intent.id }],
      tool_calls := 0, gen_calls := 0, incomplete_context := false }
  else
    let tp := runTools registry session now runs toolBudget toolReqs
    let genEntry : AuditEntry :=
      { ts := now, session_id := session.id,
        event_kind := if genOk then "generation_ok" else "generation_failed",
        detail := intent.id }
    if genOk then
      { stage := .done, errKind := none, audit := tp.audit ++ [genEntry],
        tool_calls := tp.calls, gen_calls := 1,
        incomplete_context := tp.incomplete_context }
    else
      { stage := .failed, errKind := some "GenerationUnavailable",
        audit := tp.audit ++ [genEntry], tool_calls := tp.calls, gen_calls := 1,
        incomplete_context := tp.incomplete_context }

/-! ## Retriever (modelled from the spec, §4.3) -/

/-- Modelled from the spec: `RetrievedDocument = {source_id, text, score,
provenance_tag, ttl (optional, for ephemeral tool-derived documents)}`.
The per-query lexical and dense-similarity scores of the document are
carried as fields (they are recomputed per query; here each query works on
a corpus already annotated with its scores), and `created_at` is the
creation time the TTL counts from. -/
structure RetrievedDocument where
  source_id : String
  text : String
  lexical_score : ℚ
  vector_score : ℚ
  provenance_tag : String
  ttl : Option Nat
  created_at : Nat
deriving DecidableEq, Repr

/-- Modelled from the spec: retrieval ranking policy — the configurable
convex-combination weights and the bound on the lexical candidate set. -/
structure RetrievalPolicy where
  lexical_weight : ℚ
  vector_weight : ℚ
  candidate_bound : Nat
deriving DecidableEq, Repr

/-- Modelled from the spec: an ephemeral document's TTL has expired at
query time `now` (a document with no TTL never expires). -/
def expiredAt (d : RetrievedDocument) (now : Nat) : Bool :=
  match d.ttl with
  | some t => decide (d.created_at + t ≤ now)
  | none => false

/-- Modelled from the spec: the final score — the configurable convex
combination `lexical_weight * lexical_score + vector_weight * vector_score`. -/
def combinedScore (p : RetrievalPolicy) (d : RetrievedDocument) : ℚ :=
  p.lexical_weight * d.lexical_score + p.vector_weight * d.vector_score

/-- Modelled from the spec: the score used for the final ranking — the
combined score when the embedding backend is available, and the lexical
score alone in the degraded (lexical-only) fallback mode. -/
def docScore (p : RetrievalPolicy) (emb : Bool) (d : RetrievedDocument) : ℚ :=
  if emb then combinedScore p d else d.lexical_score

/-- A document of a retrieval result set together with its final score. -/
structure ScoredDoc where
  doc : RetrievedDocument
  score : ℚ
deriving DecidableEq, Repr

/-- Modelled from the spec: a retrieval result set — the ordered documents
(highest score first) and the degraded-mode flag. -/
structure RetrievalResult where
  docs : List ScoredDoc
  degraded : Bool
deriving DecidableEq, Repr

/-- Modelled from the spec: `retrieve(query, k)` over a corpus whose
per-query scores are already annotated.  Expired ephemeral documents are
excluded up front; stage (a) is the cheap lexical prune to at most
`candidate_bound` candidates; stage (b) ranks the candidate set by the
combined score (or lexical-only when the embedding backend is unavailable,
reported via the `degraded` flag); the top `k` are returned highest score
first. -/
def retrieve (p : RetrievalPolicy) (corpus : List RetrievedDocument)
    (k : Nat) (now : Nat) (emb : Bool) : RetrievalResult :=
  let live := corpus.filter (fun d => !expiredAt d now)
  let lexSorted := live.insertionSort (fun a b => b.lexical_score ≤ a.lexical_score)
  let candidates := lexSorted.take p.candidate_bound
  let ranked := candidates.insertionSort (fun a b => docScore p emb b ≤ docScore p emb a)
  { docs := (ranked.take k).map (fun d => { doc := d, score := docScore p emb d }),
    degraded := !emb }

/-! ## Model Gateway circuit breaker (modelled from the spec, §4.2) -/

/-- Modelled from the spec: circuit-breaker parameters — `N` consecutive
failures within a window `W` open the breaker, which stays open for
`cooldown` before a half-open probe is allowed. -/
structure BreakerConfig where
  N : Nat
  W : Nat
  cooldown : Nat
deriving DecidableEq, Repr

/-- The breaker's switch state: closed (provider attempted normally), open
since `openedAt` (provider skipped), or half-open (one probe in flight). -/
inductive BState where
  | closed
  | opened (openedAt : Nat)
  | halfOpen
deriving DecidableEq, Repr

/-- Modelled from the spec: a per-provider circuit breaker — its switch
state plus the consecutive-failure streak accounting: `failCount` failures
since the last success, counted within a window starting at
`windowStart`. -/
structure Breaker where
  st : BState
  windowStart : Nat
  failCount : Nat
deriving DecidableEq, Repr

/-- The initial breaker for a provider that has never failed. -/
def freshBreaker : Breaker :=
  { st := .closed, windowStart := 0, failCount := 0 }

/-- Modelled from the spec: record a provider failure at time `now`.  A
failure during a half-open probe reopens the breaker.  Otherwise the
consecutive-failure streak advances (restarting its window when the streak
is empty or the failure falls outside the window `W` of the streak's
start); once it reaches `N` failures within the window, the breaker opens
at `now`. -/
def recordFailure (cfg : BreakerConfig) (b : Breaker) (now : Nat) : Breaker :=
  match b.st with
  | .halfOpen => { st := .opened now, windowStart := now, failCount := 1 }
  | _ =>
      let reset := b.failCount == 0 || decide (b.windowStart + cfg.W < now)
      let ws := if reset then now else b.windowStart
      let c := if reset then 1 else b.failCount + 1
      if cfg.N ≤ c then { st := .opened now, windowStart := ws, failCount := c }
      else { st := b.st, windowStart := ws, failCount := c }

/-- Modelled from the spec: record a provider success — a successful call
(in particular a successful half-open probe) closes the breaker and resets
the consecutive-failure streak. -/
def recordSuccess (_b : Breaker) : Breaker := freshBreaker

/-- Modelled from the spec: whether a call to the provider may be
attempted at `now` — always when closed, never while half-open with the
single probe outstanding, and only once the cool-down has elapsed when
open. -/
def canAttempt (cfg : BreakerConfig) (b : Breaker) (now : Nat) : Bool :=
  match b.st with
  | .closed => true
  | .opened t => decide (t + cfg.cooldown ≤ now)
  | .halfOpen => false

/-- Modelled from the spec: begin a call through the breaker at `now`.
Returns whether the call may proceed, and the updated breaker: an open
breaker whose cool-down has elapsed admits exactly one half-open probe
(the transition to `halfOpen` blocks any further call until the probe is
settled by `recordSuccess`/`recordFailure`). -/
def beginCall (cfg : BreakerConfig) (b : Breaker) (now : Nat) :
    Bool × Breaker :=
  match b.st with
  | .closed => (true, b)
  | .opened t =>
      if t + cfg.cooldown ≤ now then (true, { b with st := .halfOpen })
      else (false, b)
  | .halfOpen => (false, b)

/-- Apply a sequence of provider failures to a breaker, in order. -/
def applyFailures (cfg : BreakerConfig) (b : Breaker) (ts : List Nat) : Breaker :=
  ts.foldl (recordFailure cfg) b

/-- Modelled from the spec: `ModelRoute = {model_id, provider,
max_latency_ms, fallback_chain}`; a route's fallback chain is represented
as the list of routes tried in order. -/
structure ModelRoute where
  model_id : String
  provider : String
  max_latency_ms : Nat
deriving DecidableEq, Repr

/-- Look up the breaker of a provider in the gateway's per-provider
breaker table (a provider without an entry has a fresh breaker). -/
def getBreaker (bs : List (String × Breaker)) (p : String) : Breaker :=
  match bs.find? (fun x => x.1 == p) with
  | some x => x.2
  | none => freshBreaker

/-- Modelled from the spec: route selection through the breakers — the
first route of the fallback chain whose provider's breaker admits a call
at `now`; a provider whose breaker is open is skipped in favor of the next
route without being attempted. -/
def selectRoute (cfg : BreakerConfig) (bs : List (String × Breaker))
    (chain : List ModelRoute) (now : Nat) : Option ModelRoute :=
  chain.find? (fun r => canAttempt cfg (getBreaker bs r.provider) now)

/-! ## Config dashboard (`src/ui/config-dashboard/src/App.jsx`) -/

/-- A React hook invocation as it appears in a render of `App`
(App.jsx:46-160), identified by the hook kind and the variable/query it
serves. -/
inductive Hook where
  | useQueryClient
  | useQuery (key : String)
  | useMutation (key : String)
  | useState (key : String)
  | useEffect (key : String)
  | useMemo (key : String)
deriving DecidableEq, Repr

/-- The fetch state of the `["config"]` query driving `App`'s early
returns (App.jsx:142-148). -/
inductive FetchState where
  | loading
  | error
  | success
deriving DecidableEq, Repr

/-- The hooks `App` invokes before the loading/error early returns, in
source order (App.jsx:47-140). -/
def appHooksBeforeReturns : List Hook :=
  [ .useQueryClient,
    .useQuery "config",
    .useMutation "updateConfig",
    .useMutation "patchSection",
    .useState "generalState",
    .useState "modelsState",
    .useState "retrievalState",
    .useState "toolingState",
    .useState "voiceState",
    .useState "memoryState",
    .useState "safetyState",
    .useEffect "populateFromConfig",
    .useState "sessionId",
    .useState "preferenceDraft",
    .useQuery "preferences",
    .useMutation "setPreference",
    .useQuery "safety-log",
    .useQuery "tooling-consent" ]

/-- The sequence of hooks a render of `App` invokes, as a function of the
config query's fetch state: the early returns at App.jsx:142-148 return
`LoadingState`/`ErrorState` before the `useMemo` computing `lastSynced`
at App.jsx:150-160 is reached, so only the success path invokes it. -/
def appRenderHooks : FetchState → List Hook
  | .loading => appHooksBeforeReturns
  | .error => appHooksBeforeReturns
  | .success => appHooksBeforeReturns ++ [.useMemo "lastSynced"]

/-- A separator character of the regex `[\n,]` that `splitLines`
(App.jsx:40-44) splits on. -/
def isSepChar (c : Char) : Bool := c == '\n' || c == ','

/-- A whitespace character removed by `String.prototype.trim` from the
ends of each entry (strings are modelled as `List Char`): the ECMAScript
WhiteSpace set — TAB, VT, FF, SP, NBSP, ZWNBSP/BOM and the Unicode
Space_Separator characters (OGHAM SPACE MARK, the EN-QUAD..HAIR-SPACE
range, NARROW NBSP, MEDIUM MATHEMATICAL SPACE, IDEOGRAPHIC SPACE) — plus
the LineTerminator set LF, CR, LS, PS. -/
def isWsChar (c : Char) : Bool :=
  c.toNat == 0x09 || c.toNat == 0x0A || c.toNat == 0x0B || c.toNat == 0x0C ||
  c.toNat == 0x0D || c.toNat == 0x20 || c.toNat == 0xA0 || c.toNat == 0x1680 ||
  (0x2000 ≤ c.toNat && c.toNat ≤ 0x200A) || c.toNat == 0x2028 ||
  c.toNat == 0x2029 || c.toNat == 0x202F || c.toNat == 0x205F ||
  c.toNat == 0x3000 || c.toNat == 0xFEFF

/-- `value.split(/[\n,]/)` of App.jsx:42: split the character list at
every newline or comma, keeping empty segments (as JS `split` does). -/
def splitOnSeps : List Char → List (List Char)
  | [] => [[]]
  | c :: cs =>
      if isSepChar c then [] :: splitOnSeps cs
      else
        match splitOnSeps cs with
        | [] => [[c]]
        | e :: es => (c :: e) :: es

/-- `entry.trim()` of App.jsx:43: drop whitespace from both ends (the
trailing run is removed through a reversal, then the leading run). -/
def trimChars (s : List Char) : List Char :=
  ((s.reverse.dropWhile isWsChar).reverse).dropWhile isWsChar

/-- `splitLines` (App.jsx:40-44): split on newlines and commas, trim each
entry, and drop the empty ones (`.filter(Boolean)`). -/
def splitLines (s : List Char) : List (List Char) :=
  ((splitOnSeps s).map trimChars).filter (fun e => !e.isEmpty)

/-- `list.join("\n")` as used to populate the allowlist textareas
(App.jsx:101-102). -/
def joinLines : List (List Char) → List Char
  | [] => []
  | [x] => x
  | x :: xs => x ++ '\n' :: joinLines xs

/-- Little-endian-free decimal reading of a digit run, as JS `Number`
accumulates it. -/
def digitsToNat (ds : List Char) : Nat :=
  ds.foldl (fun a c => a * 10 + (c.toNat - 48)) 0

/-- The result of the JS string-to-number conversion: `NaN`, one of the
two infinities, or a finite value (idealized as an exact rational; the
float64 rounding of the JS runtime is not modelled). -/
inductive JsNum where
  | nan
  | posInf
  | negInf
  | val (q : ℚ)
deriving DecidableEq, Repr

/-- The ExponentPart of a JS decimal literal, after the `e`/`E`: an
optionally signed non-empty digit run. -/
def parseExponent (cs : List Char) : Option ℤ :=
  match cs with
  | '+' :: ds =>
      if !ds.isEmpty && ds.all Char.isDigit then some (digitsToNat ds : ℤ) else none
  | '-' :: ds =>
      if !ds.isEmpty && ds.all Char.isDigit then some (-(digitsToNat ds : ℤ)) else none
  | ds =>
      if !ds.isEmpty && ds.all Char.isDigit then some (digitsToNat ds : ℤ) else none

/-- The StrUnsignedDecimalLiteral of the JS string-to-number conversion:
`digits [. digits] [exponent]` or `. digits [exponent]` (at least one
mantissa digit), valued `mantissa * 10 ^ exponent`; anything else is not
a decimal literal. -/
def parseDecimal (cs : List Char) : Option ℚ :=
  let ip := cs.takeWhile Char.isDigit
  match cs.dropWhile Char.isDigit with
  | [] => if ip.isEmpty then none else some (digitsToNat ip)
  | '.' :: rest2 =>
      let frac := rest2.takeWhile Char.isDigit
      let m : ℚ := (digitsToNat ip : ℚ) + (digitsToNat frac : ℚ) / ((10 : ℚ) ^ frac.length)
      if ip.isEmpty && frac.isEmpty then none
      else
        match rest2.dropWhile Char.isDigit with
        | [] => some m
        | e :: es =>
            if e == 'e' || e == 'E' then
              (parseExponent es).map (fun k => m * (10 : ℚ) ^ k)
            else none
  | e :: es =>
      if (e == 'e' || e == 'E') && !ip.isEmpty then
        (parseExponent es).map (fun k => (digitsToNat ip : ℚ) * (10 : ℚ) ^ k)
      else none

/-- A hexadecimal digit's value. -/
def hexDigitVal (c : Char) : Option Nat :=
  if '0' ≤ c && c ≤ '9' then some (c.toNat - 48)
  else if 'a' ≤ c && c ≤ 'f' then some (c.toNat - 87)
  else if 'A' ≤ c && c ≤ 'F' then some (c.toNat - 55)
  else none

/-- An octal digit's value. -/
def octDigitVal (c : Char) : Option Nat :=
  if '0' ≤ c && c ≤ '7' then some (c.toNat - 48) else none

/-- A binary digit's value. -/
def binDigitVal (c : Char) : Option Nat :=
  if c == '0' then some 0 else if c == '1' then some 1 else none

/-- A non-empty digit run of a NonDecimalIntegerLiteral (`0x`/`0o`/`0b`)
read in the given base. -/
def parseRadix (base : Nat) (digitVal : Char → Option Nat) (ds : List Char) : Option ℚ :=
  if ds.isEmpty then none
  else
    (ds.foldl
      (fun acc c =>
        match acc, digitVal c with
        | some a, some v => some (a * base + v)
        | _, _ => none)
      (some 0)).map (fun n => (n : ℚ))

/-- A StrNumericLiteral without a sign: a `0x`/`0o`/`0b` integer literal
(signs are not permitted on these in JS) or a decimal literal. -/
def parseUnsigned (cs : List Char) : Option ℚ :=
  match cs with
  | '0' :: x :: ds =>
      if x == 'x' || x == 'X' then parseRadix 16 hexDigitVal ds
      else if x == 'o' || x == 'O' then parseRadix 8 octDigitVal ds
      else if x == 'b' || x == 'B' then parseRadix 2 binDigitVal ds
      else parseDecimal cs
  | _ => parseDecimal cs

/-- The character sequence of the `Infinity` literal. -/
def infinityChars : List Char := ['I', 'n', 'f', 'i', 'n', 'i', 't', 'y']

/-- JS `Number(t)` on the form-field strings (the ECMAScript
string-to-number conversion): leading/trailing whitespace is ignored, the
empty string converts to `0`, `[sign] Infinity` to an infinity,
`[sign] decimal-literal` (with optional fraction and exponent) to its
value, an unsigned `0x`/`0o`/`0b` integer literal to its value, and any
other text to `NaN`.  Finite values are exact rationals; the float64
rounding of the runtime is not modelled. -/
def jsNumber (s : List Char) : JsNum :=
  match trimChars s with
  | [] => .val 0
  | '+' :: cs =>
      if cs = infinityChars then .posInf
      else match parseDecimal cs with
        | some q => .val q
        | none => .nan
  | '-' :: cs =>
      if cs = infinityChars then .negInf
      else match parseDecimal cs with
        | some q => .val (-q)
        | none => .nan
  | cs =>
      if cs = infinityChars then .posInf
      else match parseUnsigned cs with
        | some q => .val q
        | none => .nan

/-- `Number(t) || 0` of App.jsx:164-175: `NaN` (a failed parse) and `0`
are the falsy outcomes and yield `0`; every other outcome (a nonzero
finite value or an infinity) is kept. -/
def numberOr0 (s : List Char) : JsNum :=
  match jsNumber s with
  | .nan => .val 0
  | x => x

/-- The perception section of the runtime config: the
`latency_budget_ms` field written by `handleGeneralSave`, plus whatever
other keys the section carries (preserved by the `...next.perception`
spread at App.jsx:165-168). -/
structure PerceptionSection (α : Type) where
  latency_budget_ms : JsNum
  rest : α
deriving DecidableEq, Repr

/-- The planning section: `horizon_s` plus the spread-preserved rest
(App.jsx:169-172). -/
structure PlanningSection (α : Type) where
  horizon_s : JsNum
  rest : α
deriving DecidableEq, Repr

/-- The control section: `safety_margin` plus the spread-preserved rest
(App.jsx:173-176). -/
structure ControlSection (α : Type) where
  safety_margin : JsNum
  rest : α
deriving DecidableEq, Repr

/-- The fetched configuration object as `handleGeneralSave` sees it: the
four Runtime Loop targets, and the remaining sections (whose JSON payloads
are abstracted by `α`). -/
structure Config (α : Type) where
  loop_rate_hz : JsNum
  perception : PerceptionSection α
  planning : PlanningSection α
  control : ControlSection α
  models : α
  retrieval : α
  tooling : α
  voice : α
  memory : α
  safety : α
deriving DecidableEq, Repr

/-- The `generalState` form texts (App.jsx:75-80), one string per Runtime
Loop input. -/
structure GeneralFormState where
  loop_rate_hz : List Char
  perception_latency : List Char
  planning_horizon : List Char
  control_margin : List Char
deriving DecidableEq, Repr

/-- `handleGeneralSave` (App.jsx:162-178): deep-clone the fetched config
(`JSON.parse(JSON.stringify(config))`, the identity on the value level),
overwrite `loop_rate_hz` and the three section fields with
`Number(text) || 0`, preserving every other key via the object spreads,
and send the payload to `updateConfig`.  The returned value is that
payload. -/
def handleGeneralSave (config : Config α) (g : GeneralFormState) : Config α :=
  { config with
    loop_rate_hz := numberOr0 g.loop_rate_hz,
    perception := { config.perception with
                    latency_budget_ms := numberOr0 g.perception_latency },
    planning := { config.planning with
                  horizon_s := numberOr0 g.planning_horizon },
    control := { config.control with
                 safety_margin := numberOr0 g.control_margin } }

/-! ## Helper lemmas -/

theorem dropWhile_head_false (p : α → Bool) :
    ∀ (l : List α) (c : α), (l.dropWhile p).head? = some c → p c = false := by
  intro l
  induction l with
  | nil => intro c h; simp [List.dropWhile] at h
  | cons a t ih =>
      intro c h
      rw [List.dropWhile_cons] at h
      by_cases hpa : p a = true
      · rw [if_pos hpa] at h; exact ih c h
      · rw [if_neg hpa] at h
        simp only [List.head?_cons, Option.some.injEq] at h
        subst h
        simpa using hpa

theorem dropWhile_getLast? (p : α → Bool) :
    ∀ l : List α, l.dropWhile p ≠ [] → (l.dropWhile p).getLast? = l.getLast? := by
  intro l
  induction l with
  | nil => intro h; simp [List.dropWhile] at h
  | cons a t ih =>
      intro h
      rw [List.dropWhile_cons]
      by_cases hpa : p a = true
      · rw [List.dropWhile_cons, if_pos hpa] at h
        rw [if_pos hpa, ih h]
        cases t with
        | nil => simp [List.dropWhile] at h
        | cons b t' => rw [List.getLast?_cons_cons]
      · rw [if_neg hpa]

theorem mem_trimChars {s : List Char} {c : Char} (h : c ∈ trimChars s) : c ∈ s := by
  unfold trimChars at h
  have h1 := (List.dropWhile_sublist isWsChar).subset h
  rw [List.mem_reverse] at h1
  have h2 := (List.dropWhile_sublist isWsChar).subset h1
  rwa [List.mem_reverse] at h2

theorem trimChars_head (s : List Char) (c : Char)
    (h : (trimChars s).head? = some c) : isWsChar c = false :=
  dropWhile_head_false isWsChar _ c h

theorem trimChars_getLast (s : List Char) (c : Char)
    (h : (trimChars s).getLast? = some c) : isWsChar c = false := by
  unfold trimChars at h
  have hne : ((s.reverse.dropWhile isWsChar).reverse).dropWhile isWsChar ≠ [] := by
    intro hnil; rw [hnil] at h; simp at h
  rw [dropWhile_getLast? isWsChar _ hne, List.getLast?_reverse] at h
  exact dropWhile_head_false isWsChar _ c h

theorem mem_splitOnSeps_sep_free :
    ∀ (s e : List Char), e ∈ splitOnSeps s → ∀ c ∈ e, isSepChar c = false := by
  intro s
  induction s with
  | nil =>
      intro e he c hc
      simp only [splitOnSeps, List.mem_singleton] at he
      subst he
      simp at hc
  | cons a t ih =>
      intro e he c hc
      by_cases ha : isSepChar a = true
      · rw [splitOnSeps, if_pos ha] at he
        rcases List.mem_cons.mp he with h | h
        · subst h; simp at hc
        · exact ih e h c hc
      · rw [splitOnSeps, if_neg ha] at he
        cases hsp : splitOnSeps t with
        | nil =>
            rw [hsp] at he
            simp only [List.mem_singleton] at he
            subst he
            rcases List.mem_singleton.mp hc with rfl
            simpa using ha
        | cons e' es =>
            rw [hsp] at he
            rcases List.mem_cons.mp he with h | h
            · subst h
              rcases List.mem_cons.mp hc with rfl | hc'
              · simpa using ha
              · exact ih e' (by rw [hsp]; exact List.mem_cons_self e' es) c hc'
            · exact ih e (by rw [hsp]; exact List.mem_cons_of_mem e' h) c hc

theorem splitOnSeps_sep_free_eq :
    ∀ e : List Char, (∀ c ∈ e, isSepChar c = false) → splitOnSeps e = [e] := by
  intro e
  induction e with
  | nil => intro _; rfl
  | cons c t ih =>
      intro h
      have hc : isSepChar c = false := h c (List.mem_cons_self c t)
      rw [splitOnSeps, if_neg (by simp [hc]),
        ih (fun x hx => h x (List.mem_cons_of_mem c hx))]

theorem splitOnSeps_append (e rest : List Char)
    (he : ∀ c ∈ e, isSepChar c = false) :
    splitOnSeps (e ++ '\n' :: rest) = e :: splitOnSeps rest := by
  induction e with
  | nil => rw [List.nil_append, splitOnSeps, if_pos (by decide)]
  | cons c t ih =>
      have hc : isSepChar c = false := he c (List.mem_cons_self c t)
      rw [List.cons_append, splitOnSeps, if_neg (by simp [hc]),
        ih (fun x hx => he x (List.mem_cons_of_mem c hx))]

theorem joinLines_cons_cons (x y : List Char) (ys : List (List Char)) :
    joinLines (x :: y :: ys) = x ++ '\n' :: joinLines (y :: ys) := rfl

theorem splitOnSeps_joinLines :
    ∀ l : List (List Char), (∀ e ∈ l, ∀ c ∈ e, isSepChar c = false) → l ≠ [] →
      splitOnSeps (joinLines l) = l := by
  intro l
  induction l with
  | nil => intro _ h; exact absurd rfl h
  | cons x xs ih =>
      intro hsep _
      cases xs with
      | nil =>
          show splitOnSeps (joinLines [x]) = [x]
          rw [show joinLines [x] = x from rfl]
          exact splitOnSeps_sep_free_eq x (hsep x (List.mem_cons_self x []))
      | cons y ys =>
          rw [joinLines_cons_cons,
            splitOnSeps_append x (joinLines (y :: ys)) (hsep x (List.mem_cons_self x _)),
            ih (fun e he c hc => hsep e (List.mem_cons_of_mem x he) c hc)
              (List.cons_ne_nil y ys)]

theorem applyFailures_cons (cfg : BreakerConfig) (b : Breaker) (x : Nat)
    (rest : List Nat) :
    applyFailures cfg b (x :: rest) = applyFailures cfg (recordFailure cfg b x) rest := rfl

theorem recordFailure_closed (cfg : BreakerConfig) (ws c x : Nat)
    (hc : c ≠ 0) (hx : x ≤ ws + cfg.W) :
    recordFailure cfg { st := .closed, windowStart := ws, failCount := c } x =
      if cfg.N ≤ c + 1 then { st := .opened x, windowStart := ws, failCount := c + 1 }
      else { st := .closed, windowStart := ws, failCount := c + 1 } := by
  have hbeq : (c == 0) = false := by simp [hc]
  have hdec : decide (ws + cfg.W < x) = false := decide_eq_false (by omega)
  simp [recordFailure, hbeq, hdec]

theorem recordFailure_fresh (cfg : BreakerConfig) (t : Nat) :
    recordFailure cfg freshBreaker t =
      if cfg.N ≤ 1 then { st := .opened t, windowStart := t, failCount := 1 }
      else { st := .closed, windowStart := t, failCount := 1 } := by
  simp [recordFailure, freshBreaker]

theorem applyFailures_below (cfg : BreakerConfig) :
    ∀ (rest : List Nat) (ws c : Nat), c ≠ 0 → c + rest.length < cfg.N →
      (∀ x ∈ rest, x ≤ ws + cfg.W) →
      applyFailures cfg { st := .closed, windowStart := ws, failCount := c } rest =
        { st := .closed, windowStart := ws, failCount := c + rest.length } := by
  intro rest
  induction rest with
  | nil => intro ws c hc hlt hw; simp [applyFailures]
  | cons x rest ih =>
      intro ws c hc hlt hw
      simp only [List.length_cons] at hlt
      rw [applyFailures_cons,
        recordFailure_closed cfg ws c x hc (hw x (List.mem_cons_self x rest)),
        if_neg (by omega),
        ih ws (c + 1) (Nat.succ_ne_zero c) (by omega)
          (fun y hy => hw y (List.mem_cons_of_mem x hy))]
      simp only [Breaker.mk.injEq, List.length_cons]
      exact ⟨trivial, trivial, by omega⟩

theorem applyFailures_opens (cfg : BreakerConfig) :
    ∀ (front : List Nat) (t ws c : Nat), c ≠ 0 →
      c + front.length + 1 = cfg.N →
      (∀ x ∈ front ++ [t], x ≤ ws + cfg.W) →
      applyFailures cfg { st := .closed, windowStart := ws, failCount := c }
          (front ++ [t]) =
        { st := .opened t, windowStart := ws, failCount := cfg.N } := by
  intro front
  induction front with
  | nil =>
      intro t ws c hc hN hw
      simp only [List.nil_append] at hw ⊢
      rw [applyFailures_cons,
        recordFailure_closed cfg ws c t hc (hw t (List.mem_cons_self t [])),
        if_pos (by simp at hN; omega)]
      simp only [applyFailures, List.foldl_nil, Breaker.mk.injEq]
      exact ⟨trivial, trivial, by simp at hN; omega⟩
  | cons y front ih =>
      intro t ws c hc hN hw
      simp only [List.length_cons] at hN
      rw [List.cons_append, applyFailures_cons,
        recordFailure_closed cfg ws c y hc (hw y (List.mem_cons_self y _)),
        if_neg (by omega)]
      exact ih t ws (c + 1) (Nat.succ_ne_zero c) (by omega)
        (fun x hx => hw x (List.mem_cons_of_mem y hx))

/-! ## Claim theorems -/

/-- C9: For every string input, `splitLines` returns a list of non-empty
strings, none containing a comma, a newline, or leading/trailing
whitespace; consequently, for every shell allowlist whose entries are all
non-empty, trimmed, and free of comma and newline characters, loading it
into the textarea via join with newlines and saving it via `splitLines`
returns exactly the original list (round-trip identity). -/
theorem splitLines_clean_and_roundtrip :
    (∀ s : List Char, ∀ e ∈ splitLines s,
        e ≠ [] ∧ (∀ c ∈ e, isSepChar c = false) ∧
        (∀ c, e.head? = some c → isWsChar c = false) ∧
        (∀ c, e.getLast? = some c → isWsChar c = false)) ∧
    (∀ l : List (List Char),
        (∀ e ∈ l, e ≠ [] ∧ trimChars e = e ∧ ∀ c ∈ e, isSepChar c = false) →
        splitLines (joinLines l) = l) := by
  constructor
  · intro s e he
    simp only [splitLines, List.mem_filter, List.mem_map] at he
    obtain ⟨⟨e0, he0, rfl⟩, hne⟩ := he
    refine ⟨?_, ?_, ?_, ?_⟩
    · intro h
      rw [h] at hne
      simp at hne
    · intro c hc
      exact mem_splitOnSeps_sep_free s e0 he0 c (mem_trimChars hc)
    · exact trimChars_head e0
    · exact trimChars_getLast e0
  · intro l hl
    cases l with
    | nil => rfl
    | cons x xs =>
        rw [splitLines,
          splitOnSeps_joinLines (x :: xs) (fun e he => (hl e he).2.2)
            (List.cons_ne_nil x xs),
          List.map_congr_left (fun e he => (hl e he).2.1), List.map_id',
          List.filter_eq_self.mpr]
        intro e he
        rw [Bool.not_eq_true']
        exact List.isEmpty_eq_false.mpr (hl e he).1

/-- Witness for C9 at concrete inputs: the entry produced by
`splitLines " a,"` is clean, and a concrete two-entry allowlist round-trips. -/
theorem splitLines_clean_and_roundtrip_witness :
    ((['a'] : List Char) ≠ [] ∧ (∀ c ∈ (['a'] : List Char), isSepChar c = false) ∧
      (∀ c, (['a'] : List Char).head? = some c → isWsChar c = false) ∧
      (∀ c, (['a'] : List Char).getLast? = some c → isWsChar c = false)) ∧
    splitLines (joinLines [['a'], ['b', 'c']]) = [['a'], ['b', 'c']] :=
  ⟨splitLines_clean_and_roundtrip.1 [' ', 'a', ','] ['a'] (by decide),
   splitLines_clean_and_roundtrip.2 [['a'], ['b', 'c']] (by decide)⟩

/-- C8 (code says otherwise): the claim — a render of `App` invokes the
same React hooks in the same order for every fetch state, in particular
the `useMemo` computing the last-synced label on every render — fails on
the code: the early returns at App.jsx:142-148 precede the `useMemo` at
App.jsx:150, so a loading or error render invokes one fewer hook than a
success render (a Rules-of-Hooks violation React rejects at runtime when
the query resolves). -/
theorem appRenderHooks_not_uniform :
    appRenderHooks .loading ≠ appRenderHooks .success ∧
    appRenderHooks .error ≠ appRenderHooks .success ∧
    Hook.useMemo "lastSynced" ∉ appRenderHooks .loading ∧
    Hook.useMemo "lastSynced" ∉ appRenderHooks .error ∧
    Hook.useMemo "lastSynced" ∈ appRenderHooks .success := by decide

/-- C10: for every Runtime Loop form field whose text does not parse to a
nonzero number, `handleGeneralSave` writes `0` for that field in the
payload sent to `updateConfig`, while all fields of sections other than
`loop_rate_hz`, `perception`, `planning`, and `control` (and the untouched
keys of those three sections) are copied unchanged from the last fetched
config. -/
theorem handleGeneralSave_spec {α : Type} (cfg : Config α) (g : GeneralFormState) :
    ((jsNumber g.loop_rate_hz = .nan ∨ jsNumber g.loop_rate_hz = .val 0) →
      (handleGeneralSave cfg g).loop_rate_hz = .val 0) ∧
    ((jsNumber g.perception_latency = .nan ∨ jsNumber g.perception_latency = .val 0) →
      (handleGeneralSave cfg g).perception.latency_budget_ms = .val 0) ∧
    ((jsNumber g.planning_horizon = .nan ∨ jsNumber g.planning_horizon = .val 0) →
      (handleGeneralSave cfg g).planning.horizon_s = .val 0) ∧
    ((jsNumber g.control_margin = .nan ∨ jsNumber g.control_margin = .val 0) →
      (handleGeneralSave cfg g).control.safety_margin = .val 0) ∧
    (handleGeneralSave cfg g).models = cfg.models ∧
    (handleGeneralSave cfg g).retrieval = cfg.retrieval ∧
    (handleGeneralSave cfg g).tooling = cfg.tooling ∧
    (handleGeneralSave cfg g).voice = cfg.voice ∧
    (handleGeneralSave cfg g).memory = cfg.memory ∧
    (handleGeneralSave cfg g).safety = cfg.safety ∧
    (handleGeneralSave cfg g).perception.rest = cfg.perception.rest ∧
    (handleGeneralSave cfg g).planning.rest = cfg.planning.rest ∧
    (handleGeneralSave cfg g).control.rest = cfg.control.rest := by
  refine ⟨?_, ?_, ?_, ?_, rfl, rfl, rfl, rfl, rfl, rfl, rfl, rfl, rfl⟩ <;>
    exact fun h => by rcases h with h | h <;> simp [handleGeneralSave, numberOr0, h]

/-- A concrete config for the C10 witness. -/
def cfgW : Config Unit :=
  { loop_rate_hz := .val 5, perception := ⟨.val 100, ()⟩,
    planning := ⟨.val 2, ()⟩, control := ⟨.val (1 / 10), ()⟩, models := (),
    retrieval := (), tooling := (), voice := (), memory := (), safety := () }

/-- The C10 witness form state: empty text, two non-numeric texts, and a
zero. -/
def gW : GeneralFormState :=
  { loop_rate_hz := [], perception_latency := ['a', 'b', 'c'],
    planning_horizon := ['1', 'x'], control_margin := ['0'] }

/-- Witness for C10: on the concrete form state all four fields are
written as `0`. -/
theorem handleGeneralSave_spec_witness :
    (handleGeneralSave cfgW gW).loop_rate_hz = .val 0 ∧
    (handleGeneralSave cfgW gW).perception.latency_budget_ms = .val 0 ∧
    (handleGeneralSave cfgW gW).planning.horizon_s = .val 0 ∧
    (handleGeneralSave cfgW gW).control.safety_margin = .val 0 :=
  ⟨(handleGeneralSave_spec cfgW gW).1 (by decide),
   (handleGeneralSave_spec cfgW gW).2.1 (by decide),
   (handleGeneralSave_spec cfgW gW).2.2.1 (by decide),
   (handleGeneralSave_spec cfgW gW).2.2.2.1 (by decide)⟩

/-- C6: `grant` is an idempotent upsert — calling it twice with identical
arguments leaves the session exactly as one call leaves it, and the
session granted once holds exactly one grant for the tool. -/
theorem grant_idempotent (s : Session) (n sc : String) (ttl now : Nat) :
    (grant ((grant s n sc ttl now).1) n sc ttl now).1 = (grant s n sc ttl now).1 ∧
    ((grant s n sc ttl now).1.consent_grants.filter (fun p => p.1 == n)).length = 1 := by
  obtain ⟨sid, tier, paused, grants⟩ := s
  constructor
  · simp [grant, List.filter_filter]
  · simp only [grant]
    have hnil : (grants.filter (fun p => !(p.1 == n))).filter (fun p => p.1 == n) = [] :=
      List.filter_eq_nil_iff.mpr (fun a ha => by
        have h2 := (List.mem_filter.mp ha).2
        simp only [Bool.not_eq_eq_eq_not, Bool.not_true] at h2
        simp [h2])
    simp [List.filter_cons, hnil]

/-- C1: invoking a tool whose ToolSpec requires consent, on a session with
no valid unexpired grant for it, returns a `denied` result, writes exactly
one AuditEntry tagged `consent_required`, and does not execute the
underlying tool action. -/
theorem invoke_consent_required (registry : List ToolSpec) (windowCalls : Nat)
    (sanitize : String → String) (tool_name args : String) (session : Session)
    (now : Nat) (run : String → RunResult) (tool : ToolSpec)
    (hfind : registry.find? (fun t => t.name == tool_name) = some tool)
    (hrc : tool.requires_consent = true)
    (hrl : windowCalls < tool.rate_limit)
    (hng : hasValidGrant session tool_name now = false) :
    invoke registry windowCalls sanitize tool_name args session now run =
      { result := { tool_name := tool_name, status := .denied, output := "",
                    duration_ms := 0, started_at := now },
        audit := [{ ts := now, session_id := session.id,
                    event_kind := "consent_required", detail := tool_name }],
        executed := false } := by
  simp only [invoke, hfind]
  rw [if_neg (by omega), if_pos (by rw [hrc, hng]; rfl)]

/-- A consent-requiring tool for the C1 witness. -/
def shellTool : ToolSpec :=
  { name := "shell", permission_tier := .command, rate_limit := 5,
    timeout_ms := 200, requires_consent := true, sandbox_policy := "strict" }

/-- A session with no grants for the C1 witness. -/
def demoSession : Session :=
  { id := "s1", privilege_tier := .command, paused := false, consent_grants := [] }

/-- Witness for C1: the concrete grant-free invocation is denied with one
`consent_required` audit entry and no execution. -/
theorem invoke_consent_required_witness :
    invoke [shellTool] 0 id "shell" "ls" demoSession 10
        (fun _ => { output := "x", duration_ms := 1, ok := true }) =
      { result := { tool_name := "shell", status := .denied, output := "",
                    duration_ms := 0, started_at := 10 },
        audit := [{ ts := 10, session_id := "s1",
                    event_kind := "consent_required", detail := "shell" }],
        executed := false } :=
  invoke_consent_required [shellTool] 0 id "shell" "ls" demoSession 10
    (fun _ => { output := "x", duration_ms := 1, ok := true }) shellTool
    (by decide) (by decide) (by decide) (by decide)

/-- C2: every tool invocation — success, denial, timeout, or error, on any
path through the executor — produces exactly one AuditEntry, recording the
session and the event time, and every state-changing ledger operation
(grant, revoke, set_privilege, pause, resume) produces exactly one
AuditEntry, all returned together with the operation's result. -/
theorem every_event_audited (registry : List ToolSpec) (windowCalls : Nat)
    (sanitize : String → String) (tool_name args scope : String)
    (session : Session) (ttl now : Nat) (tier : Tier) (run : String → RunResult) :
    (invoke registry windowCalls sanitize tool_name args session now run).audit.length = 1 ∧
    ((invoke registry windowCalls sanitize tool_name args session now run).audit.all
      (fun e => e.session_id == session.id && e.ts == now)) = true ∧
    (grant session tool_name scope ttl now).2.length = 1 ∧
    (revoke session tool_name now).2.length = 1 ∧
    (set_privilege session tier now).2.length = 1 ∧
    (pause session now).2.length = 1 ∧
    (resume session now).2.length = 1 := by
  refine ⟨?_, ?_, rfl, rfl, rfl, rfl, rfl⟩ <;>
    · unfold invoke
      split
      · simp
      · split
        · simp
        · split
          · simp
          · split
            · simp
            · split <;> simp

/-- C3: a `command`-privileged intent processed on an `informational`
session makes `process_turn` fail immediately with `PrivilegeDenied`,
writing exactly one AuditEntry, with zero tool calls and zero generation
calls attempted. -/
theorem process_turn_privilege_denied (session : Session) (intent : Intent)
    (guardrailOk : Intent → Bool) (registry : List ToolSpec)
    (toolReqs : List (String × String)) (toolBudget : Nat)
    (runs : String → String → RunResult) (genOk : Bool) (now : Nat)
    (hdecl : intent.declared_privilege = .command)
    (htier : session.privilege_tier = .informational) :
    process_turn session intent guardrailOk registry toolReqs toolBudget runs genOk now =
      { stage := .failed, errKind := some "PrivilegeDenied",
        audit := [{ ts := now, session_id := session.id,
                    event_kind := "privilege_denied", detail := intent.id }],
        tool_calls := 0, gen_calls := 0, incomplete_context := false } := by
  unfold process_turn
  rw [if_pos (by simp [privilegeExceeds, hdecl, htier])]

/-- A `command` intent for the C3 witness. -/
def demoIntent : Intent :=
  { id := "i1", session_id := "s1", text := "open the door",
    declared_privilege := .command, timestamp := 5, safety_tag := "none" }

/-- An `informational`-tier session for the C3 witness. -/
def infoSession : Session :=
  { id := "s1", privilege_tier := .informational, paused := false,
    consent_grants := [] }

/-- Witness for C3 at a concrete command intent on an informational
session. -/
theorem process_turn_privilege_denied_witness :
    process_turn infoSession demoIntent (fun _ => true) [] [] 100
        (fun _ _ => { output := "", duration_ms := 0, ok := true }) true 5 =
      { stage := .failed, errKind := some "PrivilegeDenied",
        audit := [{ ts := 5, session_id := "s1",
                    event_kind := "privilege_denied", detail := "i1" }],
        tool_calls := 0, gen_calls := 0, incomplete_context := false } :=
  process_turn_privilege_denied infoSession demoIntent (fun _ => true) [] [] 100
    (fun _ _ => { output := "", duration_ms := 0, ok := true }) true 5 rfl rfl

/-- C4: for every query configuration and every query time, the result
sequence returned by `retrieve` contains no ephemeral document whose TTL
has expired relative to that query time — the caller never needs to
filter expired documents itself. -/
theorem retrieve_excludes_expired (p : RetrievalPolicy)
    (corpus : List RetrievedDocument) (k now : Nat) (emb : Bool) :
    ((retrieve p corpus k now emb).docs.all (fun sd => !expiredAt sd.doc now)) = true := by
  rw [List.all_eq_true]
  intro sd hsd
  simp only [retrieve, List.mem_map] at hsd
  obtain ⟨d, hd, rfl⟩ := hsd
  have h2 := List.mem_of_mem_take hd
  rw [List.mem_insertionSort] at h2
  have h3 := List.mem_of_mem_take h2
  rw [List.mem_insertionSort] at h3
  have h4 := (List.mem_filter.mp h3).2
  simpa using h4

/-- C7: every score in a retrieval result set equals
`lexical_weight * lexical_score + vector_weight * vector_score` with the
weights taken from the policy; with `lexical_weight = 0.3`,
`vector_weight = 0.7`, `lexical_score = 0.5`, `vector_score = 0.9` the
combined score is exactly 0.78; result sets are ordered by combined score,
so such a document is ordered before any document with combined score
0.6 — checked concretely on a two-document corpus. -/
theorem retrieval_score_policy :
    (∀ (p : RetrievalPolicy) (corpus : List RetrievedDocument) (k now : Nat),
      ((retrieve p corpus k now true).docs.all
        (fun sd => sd.score ==
          p.lexical_weight * sd.doc.lexical_score +
            p.vector_weight * sd.doc.vector_score)) = true) ∧
    combinedScore
        { lexical_weight := 3 / 10, vector_weight := 7 / 10, candidate_bound := 10 }
        { source_id := "a", text := "t", lexical_score := 1 / 2,
          vector_score := 9 / 10, provenance_tag := "p", ttl := none,
          created_at := 0 } = 78 / 100 ∧
    (∀ (p : RetrievalPolicy) (corpus : List RetrievedDocument) (k now : Nat) (emb : Bool),
      List.Pairwise (fun a b => b.score ≤ a.score) (retrieve p corpus k now emb).docs) ∧
    (retrieve { lexical_weight := 3 / 10, vector_weight := 7 / 10, candidate_bound := 10 }
        [{ source_id := "b", text := "t", lexical_score := 6 / 10,
           vector_score := 6 / 10, provenance_tag := "p", ttl := none, created_at := 0 },
         { source_id := "a", text := "t", lexical_score := 1 / 2,
           vector_score := 9 / 10, provenance_tag := "p", ttl := none,
           created_at := 0 }] 5 0 true).docs.map
      (fun sd => (sd.doc.source_id, sd.score)) =
      [("a", 78 / 100), ("b", 6 / 10)] := by
  refine ⟨?_, by norm_num [combinedScore], ?_, by
    norm_num [retrieve, List.insertionSort, List.orderedInsert, expiredAt, docScore,
      combinedScore, List.filter, List.take, List.map]⟩
  · intro p corpus k now
    rw [List.all_eq_true]
    intro sd hsd
    simp only [retrieve, List.mem_map] at hsd
    obtain ⟨d, hd, rfl⟩ := hsd
    simp [docScore, combinedScore]
  · intro p corpus k now emb
    simp only [retrieve]
    rw [List.pairwise_map]
    refine List.Pairwise.sublist (List.take_sublist k _) ?_
    haveI : IsTotal RetrievedDocument
        (fun a b => docScore p emb b ≤ docScore p emb a) :=
      ⟨fun a b => le_total _ _⟩
    haveI : IsTrans RetrievedDocument
        (fun a b => docScore p emb b ≤ docScore p emb a) :=
      ⟨fun a b c hab hbc => le_trans hbc hab⟩
    exact List.sorted_insertionSort _ _

/-- C5: after exactly `N` consecutive provider failures within the window
`W` (and not before), the breaker opens at the last failure: while the
cool-down has not elapsed no call to the provider may be attempted and
route selection skips to the next route of the fallback chain; once the
cool-down elapses exactly one half-open probe is admitted (a concurrent
second call is refused); the breaker closes if the probe succeeds and
reopens at the failure time if it fails. -/
theorem gateway_circuit_breaker (cfg : BreakerConfig) (t lastT : Nat)
    (rest : List Nat)
    (hN : cfg.N = rest.length + 1)
    (hlast : (t :: rest).getLast? = some lastT)
    (hw : ∀ x ∈ rest, x ≤ t + cfg.W) :
    applyFailures cfg freshBreaker (t :: rest) =
      { st := .opened lastT, windowStart := t, failCount := cfg.N } ∧
    (∀ now, now < lastT + cfg.cooldown →
      canAttempt cfg (applyFailures cfg freshBreaker (t :: rest)) now = false) ∧
    (∀ (prim fb : ModelRoute) (now : Nat), (prim.provider == fb.provider) = false →
      now < lastT + cfg.cooldown →
      selectRoute cfg [(prim.provider, applyFailures cfg freshBreaker (t :: rest))]
        [prim, fb] now = some fb) ∧
    (∀ now, lastT + cfg.cooldown ≤ now →
      beginCall cfg (applyFailures cfg freshBreaker (t :: rest)) now =
        (true, { st := .halfOpen, windowStart := t, failCount := cfg.N }) ∧
      beginCall cfg { st := BState.halfOpen, windowStart := t, failCount := cfg.N } now =
        (false, { st := .halfOpen, windowStart := t, failCount := cfg.N })) ∧
    recordSuccess { st := BState.halfOpen, windowStart := t, failCount := cfg.N } =
      freshBreaker ∧
    (∀ now, recordFailure cfg
        { st := BState.halfOpen, windowStart := t, failCount := cfg.N } now =
      { st := .opened now, windowStart := now, failCount := 1 }) ∧
    (∀ rest' : List Nat, rest'.length + 1 < cfg.N →
      (∀ x ∈ rest', x ≤ t + cfg.W) →
      (applyFailures cfg freshBreaker (t :: rest')).st = .closed) := by
  have hB : applyFailures cfg freshBreaker (t :: rest) =
      { st := .opened lastT, windowStart := t, failCount := cfg.N } := by
    rw [applyFailures_cons, recordFailure_fresh]
    rcases List.eq_nil_or_concat rest with hr | ⟨front, tN, hr⟩
    · subst hr
      simp only [List.getLast?_singleton, Option.some.injEq] at hlast
      subst hlast
      rw [if_pos (by simp at hN; omega)]
      simp only [applyFailures, List.foldl_nil, Breaker.mk.injEq]
      exact ⟨trivial, trivial, by simp at hN; omega⟩
    · rw [List.concat_eq_append] at hr
      subst hr
      have hlen : cfg.N = front.length + 2 := by
        simp [List.length_append] at hN; omega
      rw [if_neg (by omega)]
      have htN : lastT = tN := by
        rw [← List.cons_append, List.getLast?_concat] at hlast
        exact (Option.some.injEq _ _ ▸ hlast.symm)
      subst htN
      exact applyFailures_opens cfg front lastT t 1 one_ne_zero (by omega) hw
  have hclosedD : ∀ now, now < lastT + cfg.cooldown →
      decide (lastT + cfg.cooldown ≤ now) = false :=
    fun now hnow => decide_eq_false (by omega)
  refine ⟨hB, ?_, ?_, ?_, by simp [recordSuccess], by intro now; simp [recordFailure], ?_⟩
  · intro now hnow
    rw [hB]
    simp [canAttempt, hclosedD now hnow]
  · intro prim fb now hne hnow
    rw [hB]
    simp [selectRoute, List.find?, getBreaker, canAttempt, hne, freshBreaker,
      hclosedD now hnow]
  · intro now hnow
    rw [hB]
    constructor
    · simp [beginCall, hnow]
    · simp [beginCall]
  · intro rest' hlt hw'
    rw [applyFailures_cons, recordFailure_fresh, if_neg (by omega),
      applyFailures_below cfg rest' t 1 one_ne_zero (by omega) hw']

/-- Witness for C5: with `N = 3`, `W = 10`, cool-down 5, three consecutive
failures at times 0, 1, 2 open the breaker at time 2. -/
theorem gateway_circuit_breaker_witness :
    applyFailures { N := 3, W := 10, cooldown := 5 } freshBreaker [0, 1, 2] =
      { st := .opened 2, windowStart := 0, failCount := 3 } :=
  (gateway_circuit_breaker { N := 3, W := 10, cooldown := 5 } 0 2 [1, 2]
    (by decide) (by decide) (by decide)).1

end AIAssistant
